import Mathlib

/-!
Verification development for the oxlint-json-to-sarif converter.

The development shallowly embeds the two core stages of the program:
  * the report parser (src/parser.ts): untrusted JSON text is decoded and
    normalized into a typed `OxlintReport`;
  * the SARIF projector (src/converter.ts): a typed `OxlintReport` is turned
    into a SARIF v2.1.0 log value.

JavaScript numbers are modelled as exact rationals plus a NaN marker
(`JsNum`); double rounding, infinities, hexadecimal `Number` coercions and
exponent-form number printing are idealized away (no claim depends on them).
JSON documents are modelled by the inductive `Json`; `Json.parse` is an
executable model of `JSON.parse`, and the JS coercions `String(...)`,
`Number(...)`, `?? `, `?.` and truthiness tests are modelled by explicit
functions.
-/

/-- A JSON value, as produced by a successful `JSON.parse`.  Objects keep
their members in source order; duplicate keys are kept in the list and
resolved to the last occurrence by `Json.getField`, matching JavaScript
object-literal semantics. -/
inductive Json where
  | null : Json
  | bool (b : Bool) : Json
  | num (q : Rat) : Json
  | str (s : String) : Json
  | arr (elems : List Json) : Json
  | obj (members : List (String × Json)) : Json

/-- A JavaScript number: an exact rational or NaN. -/
inductive JsNum where
  | nan : JsNum
  | val (q : Rat) : JsNum
deriving DecidableEq

/-- JavaScript `+` on numbers: NaN propagates.  The sum is built with the
`mkRat` smart constructor (the value is exactly `a + b`). -/
def JsNum.add : JsNum → JsNum → JsNum
  | .val a, .val b => .val (mkRat (a.num * b.den + b.num * a.den) (a.den * b.den))
  | _, _ => .nan

/-- JavaScript `> 0` on a number: false on NaN. -/
def JsNum.gtZero : JsNum → Bool
  | .nan => false
  | .val q => decide (0 < q)

/-- Largest `e` with `p ^ e` dividing `n` (`fuel`-bounded helper). -/
def powCountAux : Nat → Nat → Nat → Nat
  | 0, _, _ => 0
  | fuel + 1, p, n => if n % p = 0 && n ≠ 0 && p > 1 then 1 + powCountAux fuel p (n / p) else 0

/-- Multiplicity of the prime `p` in `n`. -/
def powCount (p n : Nat) : Nat := powCountAux n p n

/-- Decimal rendering of an exact rational whose reduced denominator divides a
power of ten (always the case for values built by the JSON parser); matches
JavaScript `String(n)` on such values, e.g. `3/2` prints as `"1.5"`. -/
def ratDecimalString (q : Rat) : String :=
  if q.den = 1 then toString q.num
  else
    let k := max (powCount 2 q.den) (powCount 5 q.den)
    if q.den ∣ 10 ^ k then
      let scaled : Nat := q.num.natAbs * (10 ^ k / q.den)
      let digits := toString scaled
      let digits := if digits.length ≤ k then
        String.mk (List.replicate (k + 1 - digits.length) '0') ++ digits else digits
      let point := digits.length - k
      (if q.num < 0 then "-" else "") ++
        (digits.toList.take point).asString ++ "." ++ (digits.toList.drop point).asString
    else toString q.num ++ "/" ++ toString q.den

/-- Per-element string conversion used by `Array.prototype.toString`: null and
undefined elements become the empty string. -/
def jsElemIsNull : Json → Bool
  | .null => true
  | _ => false

mutual
/-- JavaScript `String(v)` on a JSON value. -/
def jsToString : Json → String
  | .null => "null"
  | .bool true => "true"
  | .bool false => "false"
  | .num q => ratDecimalString q
  | .str s => s
  | .arr elems => jsArrayToString elems
  | .obj _ => "[object Object]"

/-- JavaScript `Array.prototype.toString`: elements joined by commas, with
null elements rendered as the empty string. -/
def jsArrayToString : List Json → String
  | [] => ""
  | [x] => if jsElemIsNull x then "" else jsToString x
  | x :: xs => (if jsElemIsNull x then "" else jsToString x) ++ "," ++ jsArrayToString xs
end

/-- Unicode white space recognized by JavaScript `String.prototype.trim`. -/
def jsIsWhitespace (c : Char) : Bool :=
  let n := c.toNat
  n = 9 || n = 10 || n = 11 || n = 12 || n = 13 || n = 32 ||
  n = 0xa0 || n = 0x1680 || (0x2000 ≤ n && n ≤ 0x200a) ||
  n = 0x2028 || n = 0x2029 || n = 0x202f || n = 0x205f || n = 0x3000 || n = 0xfeff

/-- Trim `jsIsWhitespace` characters from both ends of a character list. -/
def jsTrimList (cs : List Char) : List Char :=
  ((cs.dropWhile jsIsWhitespace).reverse.dropWhile jsIsWhitespace).reverse

/-- JavaScript `String.prototype.trim`. -/
def jsTrim (s : String) : String := String.mk (jsTrimList s.data)

/-- ASCII decimal digit test (used by the number lexers). -/
def isDigitChar (c : Char) : Bool := 48 ≤ c.toNat && c.toNat ≤ 57

/-- Numeric value of an ASCII decimal digit. -/
def digitVal (c : Char) : Nat := c.toNat - 48

/-- Take a maximal run of decimal digits from the front of the input. -/
def takeDigits : List Char → (List Char × List Char)
  | [] => ([], [])
  | c :: cs =>
    if isDigitChar c then
      let (ds, rest) := takeDigits cs
      (c :: ds, rest)
    else ([], c :: cs)

/-- Natural number denoted by a list of decimal digits. -/
def digitsToNat (ds : List Char) : Nat := ds.foldl (fun acc c => acc * 10 + digitVal c) 0

/-- Multiply an exact rational by an integer power of ten (built with
`mkRat`; the value is exactly `q * 10 ^ e`). -/
def ratTimesPow10 (q : Rat) (e : Int) : Rat :=
  if 0 ≤ e then mkRat (q.num * 10 ^ e.toNat) q.den else mkRat q.num (q.den * 10 ^ (-e).toNat)

/-- Decimal numeric literal accepted by the JavaScript `Number(string)`
coercion (sign, digits around an optional point, optional exponent); the
whole input must be consumed.  Hexadecimal/octal/binary literals and
`Infinity` are idealized away (they yield NaN here). -/
def parseStrNumeric (cs : List Char) : Option Rat :=
  let (sign, cs1) : Int × List Char :=
    match cs with
    | '-' :: rest => (-1, rest)
    | '+' :: rest => (1, rest)
    | _ => (1, cs)
  let (intDs, cs2) := takeDigits cs1
  let (fracDs, cs3) :=
    match cs2 with
    | '.' :: rest => takeDigits rest
    | _ => ([], cs2)
  if intDs = [] && fracDs = [] then none
  else
    let base : Rat :=
      mkRat (sign * (digitsToNat intDs * 10 ^ fracDs.length + digitsToNat fracDs : Int))
        (10 ^ fracDs.length)
    match cs3 with
    | [] => some base
    | e :: rest =>
      if e = 'e' || e = 'E' then
        let (esign, rest2) : Int × List Char :=
          match rest with
          | '-' :: r => (-1, r)
          | '+' :: r => (1, r)
          | _ => (1, rest)
        let (eDs, rest3) := takeDigits rest2
        if eDs = [] || rest3 ≠ [] then none
        else some (ratTimesPow10 base (esign * (digitsToNat eDs : Int)))
      else none

/-- JavaScript `Number(string)`: trimmed empty input is 0, otherwise the
decimal literal value, otherwise NaN. -/
def strToNumber (s : String) : JsNum :=
  let cs := jsTrimList s.data
  if cs = [] then .val 0
  else
    match parseStrNumeric cs with
    | some q => .val q
    | none => .nan

/-- JavaScript `Number(v)` on a JSON value.  Arrays convert through their
string form; plain objects are NaN. -/
def jsToNumber : Json → JsNum
  | .null => .val 0
  | .bool b => .val (if b then 1 else 0)
  | .num q => .val q
  | .str s => strToNumber s
  | .arr elems => strToNumber (jsArrayToString elems)
  | .obj _ => .nan

/-- Last binding of `k` in an object member list (later JSON duplicate keys
overwrite earlier ones). -/
def lookupLast (k : String) : List (String × Json) → Option Json
  | [] => none
  | (k2, v) :: rest =>
    match lookupLast k rest with
    | some r => some r
    | none => if k2 = k then some v else none

/-- Number of UTF-16 code units of a string (the value of JavaScript's
built-in `.length` property on strings). -/
def utf16Length (s : String) : Nat :=
  s.data.foldl (fun n c => n + (if c.toNat < 0x10000 then 1 else 2)) 0

/-- JavaScript property access `v[k]`: `none` models `undefined`.  Strings
and arrays expose their built-in `length` property (a string's length in
UTF-16 code units, an array's element count); every key the embedded code
ever reads is a fixed identifier string (`span`, `label`, `length`, ...),
so index properties and built-in methods, which those keys never hit, are
not modelled. -/
def Json.getField : Json → String → Option Json
  | .obj members, k => lookupLast k members
  | .str s, k => if k = "length" then some (.num (utf16Length s)) else none
  | .arr elems, k => if k = "length" then some (.num elems.length) else none
  | _, _ => none

/-- JavaScript `x ?? dflt` where `none` models `undefined`. -/
def jsCoalesce : Option Json → Json → Json
  | none, dflt => dflt
  | some .null, dflt => dflt
  | some v, _ => v

/-- JSON insignificant white space (space, tab, line feed, carriage return). -/
def isJsonWs (c : Char) : Bool := c = ' ' || c = '\t' || c = '\n' || c = '\r'

/-- Skip JSON white space. -/
def skipJsonWs (cs : List Char) : List Char := cs.dropWhile isJsonWs

/-- Value of a hexadecimal digit, if any. -/
def hexVal (c : Char) : Option Nat :=
  if isDigitChar c then some (digitVal c)
  else if 97 ≤ c.toNat && c.toNat ≤ 102 then some (c.toNat - 87)
  else if 65 ≤ c.toNat && c.toNat ≤ 70 then some (c.toNat - 55)
  else none

/-- Escape sequences allowed in JSON strings (short forms). -/
def escChar : Char → Option Char
  | '"' => some '"'
  | '\\' => some '\\'
  | '/' => some '/'
  | 'b' => some (Char.ofNat 8)
  | 'f' => some (Char.ofNat 12)
  | 'n' => some '\n'
  | 'r' => some '\r'
  | 't' => some '\t'
  | _ => none

/-- Body of a JSON string after the opening quote: returns the decoded
characters and the input remaining after the closing quote.  Unpaired
surrogate escapes are idealized to the `Char.ofNat` fallback character. -/
def parseStringBody : List Char → Option (List Char × List Char)
  | [] => none
  | c :: rest =>
    if c = '"' then some ([], rest)
    else if c = '\\' then
      match rest with
      | [] => none
      | e :: rest2 =>
        if e = 'u' then
          match rest2 with
          | a :: b :: c2 :: d :: rest3 =>
            match hexVal a, hexVal b, hexVal c2, hexVal d with
            | some ha, some hb, some hc, some hd =>
              let n := ((ha * 16 + hb) * 16 + hc) * 16 + hd
              (parseStringBody rest3).map (fun p => (Char.ofNat n :: p.1, p.2))
            | _, _, _, _ => none
          | _ => none
        else
          match escChar e with
          | some ec => (parseStringBody rest2).map (fun p => (ec :: p.1, p.2))
          | none => none
    else if c.toNat < 32 then none
    else (parseStringBody rest).map (fun p => (c :: p.1, p.2))

/-- A JSON number token (strict JSON grammar: optional minus, no leading
zeros, fractional digits required after a point, exponent digits required). -/
def parseJsonNumber (cs : List Char) : Option (Rat × List Char) :=
  let (sign, cs1) : Int × List Char :=
    match cs with
    | '-' :: rest => (-1, rest)
    | _ => (1, cs)
  let (intDs, cs2) := takeDigits cs1
  if intDs = [] then none
  else if 1 < intDs.length && intDs.headD '0' = '0' then none
  else
    let fracStep : Option (List Char × List Char) :=
      match cs2 with
      | '.' :: rest =>
        let (ds, r) := takeDigits rest
        if ds = [] then none else some (ds, r)
      | _ => some ([], cs2)
    match fracStep with
    | none => none
    | some (fracDs, cs3) =>
      let base : Rat :=
        mkRat (sign * (digitsToNat intDs * 10 ^ fracDs.length + digitsToNat fracDs : Int))
          (10 ^ fracDs.length)
      match cs3 with
      | e :: rest =>
        if e = 'e' || e = 'E' then
          let (esign, rest2) : Int × List Char :=
            match rest with
            | '-' :: r => (-1, r)
            | '+' :: r => (1, r)
            | _ => (1, rest)
          let (eDs, rest3) := takeDigits rest2
          if eDs = [] then none
          else some (ratTimesPow10 base (esign * (digitsToNat eDs : Int)), rest3)
        else some (base, cs3)
      | [] => some (base, [])

mutual
/-- One JSON value starting at the head of the input (fuelled recursive
descent; the top-level entry point supplies enough fuel for any input since
every recursive call consumes at least one character first). -/
def parseValue : Nat → List Char → Option (Json × List Char)
  | 0, _ => none
  | _ + 1, [] => none
  | fuel + 1, c :: cs =>
    if c = '"' then (parseStringBody cs).map (fun p => (.str (String.mk p.1), p.2))
    else if c = '{' then
      match skipJsonWs cs with
      | '}' :: r => some (.obj [], r)
      | cs2 => parseMembers fuel cs2 []
    else if c = '[' then
      match skipJsonWs cs with
      | ']' :: r => some (.arr [], r)
      | cs2 => parseElements fuel cs2 []
    else if c = 't' then
      match cs with
      | 'r' :: 'u' :: 'e' :: r => some (.bool true, r)
      | _ => none
    else if c = 'f' then
      match cs with
      | 'a' :: 'l' :: 's' :: 'e' :: r => some (.bool false, r)
      | _ => none
    else if c = 'n' then
      match cs with
      | 'u' :: 'l' :: 'l' :: r => some (.null, r)
      | _ => none
    else if c = '-' || isDigitChar c then
      (parseJsonNumber (c :: cs)).map (fun p => (.num p.1, p.2))
    else none

/-- Members of a JSON object, input positioned at the opening quote of the
next key. -/
def parseMembers : Nat → List Char → List (String × Json) → Option (Json × List Char)
  | 0, _, _ => none
  | fuel + 1, cs, acc =>
    match cs with
    | '"' :: cs1 =>
      match parseStringBody cs1 with
      | none => none
      | some (key, cs2) =>
        match skipJsonWs cs2 with
        | ':' :: cs3 =>
          match parseValue fuel (skipJsonWs cs3) with
          | none => none
          | some (v, cs4) =>
            match skipJsonWs cs4 with
            | ',' :: cs5 => parseMembers fuel (skipJsonWs cs5) (acc ++ [(String.mk key, v)])
            | '}' :: cs5 => some (.obj (acc ++ [(String.mk key, v)]), cs5)
            | _ => none
        | _ => none
    | _ => none

/-- Elements of a JSON array, input positioned at the start of the next
element. -/
def parseElements : Nat → List Char → List Json → Option (Json × List Char)
  | 0, _, _ => none
  | fuel + 1, cs, acc =>
    match parseValue fuel cs with
    | none => none
    | some (v, cs1) =>
      match skipJsonWs cs1 with
      | ',' :: cs2 => parseElements fuel (skipJsonWs cs2) (acc ++ [v])
      | ']' :: cs2 => some (.arr (acc ++ [v]), cs2)
      | _ => none
end

/-- Model of `JSON.parse`: a single JSON value surrounded by JSON white
space, or `none` on a syntax error. -/
def Json.parse (s : String) : Option Json :=
  match parseValue (s.data.length + 1) (skipJsonWs s.data) with
  | some (v, rest) => if skipJsonWs rest = [] then some v else none
  | none => none

/-- Severity of a parsed diagnostic (src/types/oxlint.ts `OxlintSeverity`). -/
inductive OxlintSeverity where
  | error : OxlintSeverity
  | warning : OxlintSeverity
deriving DecidableEq

/-- A source span (src/types/oxlint.ts `OxlintSpan`); fields are JavaScript
numbers produced by `Number(...)` coercion, hence possibly NaN. -/
structure OxlintSpan where
  offset : JsNum
  length : JsNum
  line : JsNum
  column : JsNum
deriving DecidableEq

/-- A labelled span (src/types/oxlint.ts `OxlintLabel`). -/
structure OxlintLabel where
  label : Option String := none
  span : OxlintSpan
deriving DecidableEq

/-- Related diagnostic information (src/types/oxlint.ts `OxlintRelated`). -/
structure OxlintRelated where
  message : Option String := none
  labels : Option (List OxlintLabel) := none
deriving DecidableEq

/-- A parsed diagnostic (src/types/oxlint.ts `OxlintDiagnostic`). -/
structure OxlintDiagnostic where
  message : String
  code : String
  severity : OxlintSeverity
  causes : List String
  url : Option String := none
  help : Option String := none
  filename : String
  labels : List OxlintLabel
  related : List OxlintRelated
deriving DecidableEq

/-- The parsed report (src/types/oxlint.ts `OxlintReport`); `none` in
`number_of_rules` models the explicit null marker. -/
structure OxlintReport where
  diagnostics : List OxlintDiagnostic
  number_of_files : JsNum
  number_of_rules : Option JsNum
  threads_count : JsNum
  start_time : JsNum
deriving DecidableEq

/-- The three document-level failure kinds of the report parser (§7 of the
design).  The JavaScript cause chained onto the malformed-JSON error is not
representable in this embedding and is abstracted away. -/
inductive ParseError where
  | emptyInput : ParseError
  | malformedJson : ParseError
  | invalidShape : ParseError
deriving DecidableEq

/-- Optional chain `l.span?.[k]` used by `parseLabel`: undefined when the
`span` member is missing or null (optional chaining short-circuits only on
null/undefined), otherwise plain property access on the span value — which,
for a string- or array-valued span and the key "length", yields that
value's own length property. -/
def labelSpanField (l : Json) (k : String) : Option Json :=
  match Json.getField l "span" with
  | none => none
  | some .null => none
  | some v => Json.getField v k

/-- src/parser.ts `parseLabel`: each span field is coerced by `Number` after
a `?? dflt` fallback (defaults 0, 0, 1, 1); the label text is kept only when
it is already a string. -/
def parseLabel (l : Json) : OxlintLabel :=
  { span :=
      { offset := jsToNumber (jsCoalesce (labelSpanField l "offset") (.num 0))
        length := jsToNumber (jsCoalesce (labelSpanField l "length") (.num 0))
        line := jsToNumber (jsCoalesce (labelSpanField l "line") (.num 1))
        column := jsToNumber (jsCoalesce (labelSpanField l "column") (.num 1)) }
    label :=
      match Json.getField l "label" with
      | some (.str s) => some s
      | _ => none }

/-- The filter `l !== null && l !== undefined && typeof l === 'object'` used
by `parseLabels` and on `related` entries (arrays also have typeof
'object'). -/
def isObjectLike : Json → Bool
  | .obj _ => true
  | .arr _ => true
  | _ => false

/-- src/parser.ts `parseLabels`: undefined unless the raw value is an array;
non-object entries are dropped, the rest parsed by `parseLabel`. -/
def parseLabels : Option Json → Option (List OxlintLabel)
  | some (.arr elems) => some ((elems.filter isObjectLike).map parseLabel)
  | _ => none

/-- src/parser.ts `isOxlintReport`: a non-null object whose `diagnostics`
member is an array; `getDiagnostics` also returns that array. -/
def getDiagnostics : Json → Option (List Json)
  | .obj members =>
    match lookupLast "diagnostics" members with
    | some (.arr elems) => some elems
    | _ => none
  | _ => none

/-- src/parser.ts `isOxlintDiagnostic`: a non-null object (arrays never pass
the `in` tests) with the four keys `message`, `code`, `severity`,
`filename`. -/
def isOxlintDiagnostic (v : Json) : Bool :=
  match v with
  | .obj _ =>
    (Json.getField v "message").isSome && (Json.getField v "code").isSome &&
      (Json.getField v "severity").isSome && (Json.getField v "filename").isSome
  | _ => false

/-- ASCII lower-casing of one character.  JavaScript toLowerCase is
Unicode-aware, but no Unicode-only mapping can turn a string into "error",
"warning" or "warn", so the ASCII restriction is faithful where it
matters. -/
def charToLower (c : Char) : Char :=
  if 65 ≤ c.toNat && c.toNat ≤ 90 then Char.ofNat (c.toNat + 32) else c

/-- Lower-casing of a string (character-wise `charToLower`). -/
def strToLower (s : String) : String := String.mk (s.data.map charToLower)

/-- src/parser.ts `normalizeOxlintSeverity`. -/
def normalizeOxlintSeverity (severity : String) : OxlintSeverity :=
  match strToLower severity with
  | "error" => .error
  | "warning" => .warning
  | "warn" => .warning
  | _ => .warning

/-- One entry of the `related` array of a diagnostic. -/
def parseRelated (r : Json) : OxlintRelated :=
  { message :=
      match Json.getField r "message" with
      | none => none
      | some v => some (jsToString v)
    labels := parseLabels (Json.getField r "labels") }

/-- The per-diagnostic normalization applied by `parseOxlintJson` to every
admitted entry of the `diagnostics` array. -/
def parseDiagnostic (d : Json) : OxlintDiagnostic :=
  { message := jsToString (jsCoalesce (Json.getField d "message") (.str ""))
    code := jsToString (jsCoalesce (Json.getField d "code") (.str ""))
    severity := normalizeOxlintSeverity
      (jsToString (jsCoalesce (Json.getField d "severity") (.str "warning")))
    causes :=
      match Json.getField d "causes" with
      | some (.arr elems) => elems.map jsToString
      | _ => []
    url :=
      match Json.getField d "url" with
      | none => none
      | some v => some (jsToString v)
    help :=
      match Json.getField d "help" with
      | none => none
      | some v => some (jsToString v)
    filename := jsToString (jsCoalesce (Json.getField d "filename") (.str ""))
    labels := (parseLabels (Json.getField d "labels")).getD []
    related :=
      match Json.getField d "related" with
      | some (.arr elems) => (elems.filter isObjectLike).map parseRelated
      | _ => [] }

/-- The report built from a decoded document `v` whose `diagnostics` array is
`ds`: malformed diagnostic entries are dropped, admitted ones normalized, and
the metadata fields coerced with their documented defaults. -/
def buildReport (v : Json) (ds : List Json) : OxlintReport :=
  { diagnostics := (ds.filter isOxlintDiagnostic).map parseDiagnostic
    number_of_files := jsToNumber (jsCoalesce (Json.getField v "number_of_files") (.num 0))
    number_of_rules :=
      match Json.getField v "number_of_rules" with
      | none => none
      | some .null => none
      | some x => some (jsToNumber x)
    threads_count := jsToNumber (jsCoalesce (Json.getField v "threads_count") (.num 1))
    start_time := jsToNumber (jsCoalesce (Json.getField v "start_time") (.num 0)) }

/-- src/parser.ts `parseOxlintJson`: empty input, JSON decoding and document
shape are checked in that order; everything else parses without failing. -/
def parseOxlintJson (jsonContent : String) : Except ParseError OxlintReport :=
  if jsTrim jsonContent = "" then .error .emptyInput
  else
    match Json.parse jsonContent with
    | none => .error .malformedJson
    | some parsed =>
      match getDiagnostics parsed with
      | none => .error .invalidShape
      | some ds => .ok (buildReport parsed ds)

/-- A SARIF message (`{ text }`). -/
structure SarifMessage where
  text : String
deriving DecidableEq

/-- A SARIF artifact location (only the `uri` member is produced). -/
structure SarifArtifactLocation where
  uri : String
deriving DecidableEq

/-- A SARIF region; absent members are `none` (src/converter.ts
`buildRegion` emits `startColumn` and `endColumn` conditionally). -/
structure SarifRegion where
  startLine : JsNum
  startColumn : Option JsNum := none
  endColumn : Option JsNum := none
deriving DecidableEq

/-- A SARIF physical location. -/
structure SarifPhysicalLocation where
  artifactLocation : SarifArtifactLocation
  region : Option SarifRegion := none
deriving DecidableEq

/-- A SARIF location; `id` is set only on related locations. -/
structure SarifLocation where
  id : Option Nat := none
  physicalLocation : SarifPhysicalLocation
  message : Option SarifMessage := none
deriving DecidableEq

/-- A SARIF reporting descriptor as registered by the converter. -/
structure SarifRule where
  id : String
  shortDescription : SarifMessage
  helpUri : Option String := none
  help : Option SarifMessage := none
deriving DecidableEq

/-- A SARIF result. -/
structure SarifResult where
  level : String
  message : SarifMessage
  ruleId : String
  ruleIndex : Option Nat := none
  locations : List SarifLocation
  relatedLocations : Option (List SarifLocation) := none
deriving DecidableEq

/-- The SARIF tool driver. -/
structure SarifDriver where
  name : String
  version : Option String := none
  informationUri : String
  rules : List SarifRule
deriving DecidableEq

/-- The SARIF tool wrapper. -/
structure SarifTool where
  driver : SarifDriver
deriving DecidableEq

/-- A SARIF run. -/
structure SarifRun where
  tool : SarifTool
  columnKind : String
  results : List SarifResult
deriving DecidableEq

/-- The SARIF log root; `schemaUri` stands for the `$schema` member. -/
structure SarifLog where
  schemaUri : String
  version : String
  runs : List SarifRun
deriving DecidableEq

/-- src/converter.ts `SARIF_SCHEMA`. -/
def SARIF_SCHEMA : String :=
  "https://docs.oasis-open.org/sarif/sarif/v2.1.0/cos02/schemas/sarif-schema-2.1.0.json"

/-- src/converter.ts `mapSeverityToLevel` (total on the two-valued severity
type; the switch has no default branch and needs none). -/
def mapSeverityToLevel : OxlintSeverity → String
  | .error => "error"
  | .warning => "warning"

/-- ASCII letter test used by the Windows drive-letter pattern. -/
def isAsciiLetter (c : Char) : Bool :=
  (97 ≤ c.toNat && c.toNat ≤ 122) || (65 ≤ c.toNat && c.toNat ≤ 90)

/-- The regular expression test for a Windows absolute path, anchored at the
start: an ASCII letter, a colon and a forward slash. -/
def isWindowsAbsolute (s : String) : Bool :=
  match s.data with
  | c1 :: c2 :: c3 :: _ => isAsciiLetter c1 && c2 = ':' && c3 = '/'
  | _ => false

/-- Leading-slash test for the POSIX absolute path branch of `pathToUri`. -/
def startsWithSlash (s : String) : Bool :=
  match s.data with
  | '/' :: _ => true
  | _ => false

/-- src/converter.ts `pathToUri`: backslashes become slashes, absolute paths
gain a file scheme, relative paths pass through unchanged. -/
def pathToUri (filePath : String) : String :=
  let normalized := String.mk (filePath.data.map (fun c => if c = '\\' then '/' else c))
  if isWindowsAbsolute normalized then "file:///" ++ normalized
  else if startsWithSlash normalized then "file://" ++ normalized
  else normalized

/-- src/converter.ts `buildRegion`. -/
def buildRegion (span : OxlintSpan) : SarifRegion :=
  { startLine := span.line
    startColumn := if span.column.gtZero then some span.column else none
    endColumn := if span.length.gtZero then some (span.column.add span.length) else none }

/-- src/converter.ts `buildRelatedLocation`: the truthiness test
`if (label.label)` drops the message both when the text is absent and when
it is the empty string. -/
def buildRelatedLocation (label : OxlintLabel) (filename : String) (id : Nat) : SarifLocation :=
  { id := some id
    physicalLocation :=
      { artifactLocation := { uri := pathToUri filename }
        region := some (buildRegion label.span) }
    message :=
      match label.label with
      | some t => if t = "" then none else some { text := t }
      | none => none }

/-- The labels at index 1.. of a diagnostic mapped to related locations with
1-based sequential ids (`labels.slice(1).map((lbl, idx) => ...(idx + 1))`). -/
def buildRelatedLocations (labels : List OxlintLabel) (filename : String) (id : Nat) :
    List SarifLocation :=
  match labels with
  | [] => []
  | l :: ls => buildRelatedLocation l filename id :: buildRelatedLocations ls filename (id + 1)

/-- The rule identifier of a diagnostic: `diagnostic.code || 'UnknownRule'`
(the empty string is the only falsy string). -/
def ruleIdOf (d : OxlintDiagnostic) : String :=
  if d.code = "" then "UnknownRule" else d.code

/-- The rule descriptor registered for the first diagnostic with a given
identifier; the truthiness gates `diagnostic.url ? ... : {}` and
`if (diagnostic.help)` drop empty-string values. -/
def mkRule (d : OxlintDiagnostic) : SarifRule :=
  { id := ruleIdOf d
    shortDescription := { text := ruleIdOf d }
    helpUri :=
      match d.url with
      | some u => if u = "" then none else some u
      | none => none
    help :=
      match d.help with
      | some h => if h = "" then none else some { text := h }
      | none => none }

/-- The result message text: the diagnostic message, with the help text
appended after a newline when help is truthy. -/
def messageTextOf (d : OxlintDiagnostic) : String :=
  match d.help with
  | some h => if h = "" then d.message else d.message ++ "\n" ++ h
  | none => d.message

/-- The SARIF result built for one diagnostic, before the rule index is
filled in.  The single-element `locations` array with an artifact URI and an
optional region reflects the result builder's `setLocationArtifactUri` and
`setLocationRegion` setters. -/
def mkResult (d : OxlintDiagnostic) : SarifResult :=
  { level := mapSeverityToLevel d.severity
    message := { text := messageTextOf d }
    ruleId := ruleIdOf d
    ruleIndex := none
    locations :=
      [{ physicalLocation :=
          { artifactLocation := { uri := pathToUri d.filename }
            region :=
              match d.labels.head? with
              | some l => some (buildRegion l.span)
              | none => none } }]
    relatedLocations :=
      if 1 < d.labels.length then
        some (buildRelatedLocations (d.labels.drop 1) d.filename 1)
      else none }

/-- The conversion loop of src/converter.ts `convertToSarif`: walk the
diagnostics, registering a rule at the first occurrence of each rule
identifier (the `ruleIndexMap.has` test is modelled by membership in the ids
of the rules registered so far) and emitting one result per diagnostic. -/
def convertDiags (rules : List SarifRule) :
    List OxlintDiagnostic → List SarifRule × List SarifResult
  | [] => (rules, [])
  | d :: ds =>
    let rules2 :=
      if ruleIdOf d ∈ rules.map SarifRule.id then rules else rules ++ [mkRule d]
    let rest := convertDiags rules2 ds
    (rest.1, mkResult d :: rest.2)

/-- Index of the first rule with the given id, if any. -/
def firstRuleIdx (rid : String) : List SarifRule → Option Nat
  | [] => none
  | r :: rs => if r.id = rid then some 0 else (firstRuleIdx rid rs).map (· + 1)

/-- Modelled from the spec: the node-sarif-builder dependency (not under
src/) assigns each result a `ruleIndex` in its final build step; per §4.2
step 4 of the spec this is "the registry index from step 3", i.e. the
position of the result's rule id in the emitted rules list. -/
def setRuleIndex (rules : List SarifRule) (r : SarifResult) : SarifResult :=
  match firstRuleIdx r.ruleId rules with
  | some i => { r with ruleIndex := some i }
  | none => r

/-- src/converter.ts `convertToSarif`: one run, fixed driver identity, the
collected rules and one result per diagnostic in input order.  The artifacts
list that node-sarif-builder additionally derives from the same location
URIs is outside the claims and omitted from the model. -/
def convertToSarif (report : OxlintReport) (toolVersion : Option String := none) : SarifLog :=
  let conv := convertDiags [] report.diagnostics
  { schemaUri := SARIF_SCHEMA
    version := "2.1.0"
    runs :=
      [{ tool :=
          { driver :=
              { name := "oxlint"
                version := toolVersion
                informationUri := "https://oxc.rs/docs/guide/usage/linter"
                rules := conv.1 } }
         columnKind := "utf16CodeUnits"
         results := conv.2.map (setRuleIndex conv.1) }] }

/-- The rules of a log, across its runs (there is exactly one run). -/
def logRules (log : SarifLog) : List SarifRule :=
  (log.runs.map (fun run => run.tool.driver.rules)).flatten

/-- The results of a log, across its runs (there is exactly one run). -/
def logResults (log : SarifLog) : List SarifResult :=
  (log.runs.map SarifRun.results).flatten

theorem logRules_convert (rep : OxlintReport) (tv : Option String) :
    logRules (convertToSarif rep tv) = (convertDiags [] rep.diagnostics).1 := by
  simp [logRules, convertToSarif]

theorem convertDiags_snd (rules : List SarifRule) (ds : List OxlintDiagnostic) :
    (convertDiags rules ds).2 = ds.map mkResult := by
  induction ds generalizing rules with
  | nil => rfl
  | cons d ds ih => simp only [convertDiags, List.map_cons]; rw [ih]

theorem logResults_convert (rep : OxlintReport) (tv : Option String) :
    logResults (convertToSarif rep tv) =
      rep.diagnostics.map
        (fun d => setRuleIndex (convertDiags [] rep.diagnostics).1 (mkResult d)) := by
  simp [logResults, convertToSarif, convertDiags_snd, Function.comp]

theorem setRuleIndex_ruleId (rules : List SarifRule) (r : SarifResult) :
    (setRuleIndex rules r).ruleId = r.ruleId := by
  unfold setRuleIndex; cases firstRuleIdx r.ruleId rules <;> rfl

theorem setRuleIndex_level (rules : List SarifRule) (r : SarifResult) :
    (setRuleIndex rules r).level = r.level := by
  unfold setRuleIndex; cases firstRuleIdx r.ruleId rules <;> rfl

theorem setRuleIndex_locations (rules : List SarifRule) (r : SarifResult) :
    (setRuleIndex rules r).locations = r.locations := by
  unfold setRuleIndex; cases firstRuleIdx r.ruleId rules <;> rfl

theorem setRuleIndex_relatedLocations (rules : List SarifRule) (r : SarifResult) :
    (setRuleIndex rules r).relatedLocations = r.relatedLocations := by
  unfold setRuleIndex; cases firstRuleIdx r.ruleId rules <;> rfl

/-- C9: for every Report with N diagnostics, convertToSarif produces a SARIF
log with exactly one run whose results array has length exactly N, with
result i derived from diagnostic i (input order preserved; diagnostics are
never merged or dropped by the projection stage). -/
theorem C9_result_cardinality (rep : OxlintReport) (tv : Option String) :
    (convertToSarif rep tv).runs.length = 1 ∧
    logResults (convertToSarif rep tv) =
      rep.diagnostics.map
        (fun d => setRuleIndex (convertDiags [] rep.diagnostics).1 (mkResult d)) ∧
    (logResults (convertToSarif rep tv)).length = rep.diagnostics.length := by
  refine ⟨rfl, logResults_convert rep tv, ?_⟩
  rw [logResults_convert]
  exact List.length_map _ _

/-- C2: for every raw JSON input accepted by parseOxlintJson, every admitted
diagnostic's severity is exactly error or warning, computed by lower-casing
the raw value ("error" maps to error; "warning" and "warn" map to warning;
anything else, including an explicit null severity, maps to warning); on
every result produced by convertToSarif the level is exactly "error" or
"warning". -/
theorem C2_severity_totality :
    normalizeOxlintSeverity "error" = OxlintSeverity.error ∧
    normalizeOxlintSeverity "warning" = OxlintSeverity.warning ∧
    normalizeOxlintSeverity "warn" = OxlintSeverity.warning ∧
    (∀ s : String, strToLower s ≠ "error" → normalizeOxlintSeverity s = OxlintSeverity.warning) ∧
    (∀ d : Json, Json.getField d "severity" = some Json.null →
      (parseDiagnostic d).severity = OxlintSeverity.warning) ∧
    (∀ input rep, parseOxlintJson input = Except.ok rep →
      ∀ d ∈ rep.diagnostics,
        d.severity = OxlintSeverity.error ∨ d.severity = OxlintSeverity.warning) ∧
    (∀ rep (tv : Option String) r, r ∈ logResults (convertToSarif rep tv) →
      r.level = "error" ∨ r.level = "warning") := by
  refine ⟨by decide, by decide, by decide, ?_, ?_, ?_, ?_⟩
  · intro s h
    unfold normalizeOxlintSeverity
    split
    · rename_i heq; exact absurd heq h
    · rfl
    · rfl
    · rfl
  · intro d h
    show normalizeOxlintSeverity
      (jsToString (jsCoalesce (Json.getField d "severity") (Json.str "warning"))) =
        OxlintSeverity.warning
    rw [h]
    decide
  · intro input rep _ d _
    obtain ⟨m, c, sev, ca, u, he, f, l, re⟩ := d
    cases sev
    · exact Or.inl rfl
    · exact Or.inr rfl
  · intro rep tv r hr
    rw [logResults_convert] at hr
    obtain ⟨d, _, rfl⟩ := List.mem_map.mp hr
    rw [setRuleIndex_level]
    show mapSeverityToLevel d.severity = "error" ∨ mapSeverityToLevel d.severity = "warning"
    cases hs : d.severity
    · exact Or.inl (by rw [mapSeverityToLevel])
    · exact Or.inr (by rw [mapSeverityToLevel])

deriving instance DecidableEq for Except

/-- A diagnostic with its `causes` and `related` fields cleared; two
diagnostics with the same scrub agree on every other field. -/
def scrubDiagnostic (d : OxlintDiagnostic) : OxlintDiagnostic :=
  { d with causes := [], related := [] }

theorem scrubDiagnostic_fields {d1 d2 : OxlintDiagnostic}
    (h : scrubDiagnostic d1 = scrubDiagnostic d2) :
    d1.message = d2.message ∧ d1.code = d2.code ∧ d1.severity = d2.severity ∧
    d1.url = d2.url ∧ d1.help = d2.help ∧ d1.filename = d2.filename ∧ d1.labels = d2.labels := by
  cases d1
  cases d2
  simp [scrubDiagnostic, OxlintDiagnostic.mk.injEq] at h
  obtain ⟨h1, h2, h3, h4, h5, h6, h7⟩ := h
  exact ⟨h1, h2, h3, h4, h5, h6, h7⟩

theorem ruleIdOf_congr {d1 d2 : OxlintDiagnostic}
    (h : scrubDiagnostic d1 = scrubDiagnostic d2) : ruleIdOf d1 = ruleIdOf d2 := by
  obtain ⟨_, hc, _⟩ := scrubDiagnostic_fields h
  simp [ruleIdOf, hc]

theorem mkRule_congr {d1 d2 : OxlintDiagnostic}
    (h : scrubDiagnostic d1 = scrubDiagnostic d2) : mkRule d1 = mkRule d2 := by
  obtain ⟨_, hc, _, hu, hh, _, _⟩ := scrubDiagnostic_fields h
  simp [mkRule, ruleIdOf, hc, hu, hh]

theorem mkResult_congr {d1 d2 : OxlintDiagnostic}
    (h : scrubDiagnostic d1 = scrubDiagnostic d2) : mkResult d1 = mkResult d2 := by
  obtain ⟨hm, hc, hs, hu, hh, hf, hl⟩ := scrubDiagnostic_fields h
  simp [mkResult, ruleIdOf, messageTextOf, hm, hc, hs, hu, hh, hf, hl]

theorem convertDiags_congr :
    ∀ (l1 l2 : List OxlintDiagnostic) (rules : List SarifRule),
      l1.map scrubDiagnostic = l2.map scrubDiagnostic →
      convertDiags rules l1 = convertDiags rules l2 := by
  intro l1
  induction l1 with
  | nil =>
    intro l2 rules h
    cases l2 with
    | nil => rfl
    | cons d2 t2 => simp at h
  | cons d1 t1 ih =>
    intro l2 rules h
    cases l2 with
    | nil => simp at h
    | cons d2 t2 =>
      simp only [List.map_cons, List.cons.injEq] at h
      obtain ⟨h1, h2⟩ := h
      simp only [convertDiags]
      rw [ruleIdOf_congr h1, mkRule_congr h1, mkResult_congr h1, ih t2 _ h2]

/-- C10: the SARIF log produced by convertToSarif is independent of every
diagnostic's causes and related fields: for any two Reports whose
diagnostics agree after clearing those two fields, convertToSarif returns
identical SARIF logs. -/
theorem C10_causes_related_noninterference
    (rep1 rep2 : OxlintReport) (tv : Option String)
    (h : rep1.diagnostics.map scrubDiagnostic = rep2.diagnostics.map scrubDiagnostic) :
    convertToSarif rep1 tv = convertToSarif rep2 tv := by
  simp only [convertToSarif]
  rw [convertDiags_congr rep1.diagnostics rep2.diagnostics [] h]

theorem logResults_get (rep : OxlintReport) (tv : Option String) (i : Nat)
    (hi : i < rep.diagnostics.length) :
    ∃ hr : i < (logResults (convertToSarif rep tv)).length,
      (logResults (convertToSarif rep tv)).get ⟨i, hr⟩ =
        setRuleIndex (convertDiags [] rep.diagnostics).1
          (mkResult (rep.diagnostics.get ⟨i, hi⟩)) := by
  have h := logResults_convert rep tv
  have hlen : (logResults (convertToSarif rep tv)).length = rep.diagnostics.length := by
    rw [h]; exact List.length_map _ _
  refine ⟨hlen ▸ hi, ?_⟩
  rw [List.get_of_eq h]
  simp [List.get_eq_getElem, List.getElem_map]

/-- C7: for every span, the region built by convertToSarif has startLine
equal to span.line and always present; startColumn equals span.column and is
included iff column > 0; endColumn equals column + length and is included
iff length > 0; and a diagnostic with zero labels produces a primary
location with an artifact URI but no region at all. -/
theorem C7_region_rules (span : OxlintSpan) (rep : OxlintReport) (tv : Option String)
    (i : Nat) (hi : i < rep.diagnostics.length)
    (hlab : (rep.diagnostics.get ⟨i, hi⟩).labels = []) :
    (buildRegion span).startLine = span.line ∧
    ((buildRegion span).startColumn = some span.column ↔ span.column.gtZero = true) ∧
    ((buildRegion span).startColumn = none ↔ span.column.gtZero = false) ∧
    ((buildRegion span).endColumn = some (span.column.add span.length) ↔
      span.length.gtZero = true) ∧
    ((buildRegion span).endColumn = none ↔ span.length.gtZero = false) ∧
    ∃ hr : i < (logResults (convertToSarif rep tv)).length,
      ((logResults (convertToSarif rep tv)).get ⟨i, hr⟩).locations =
        [{ physicalLocation :=
            { artifactLocation := { uri := pathToUri (rep.diagnostics.get ⟨i, hi⟩).filename }
              region := none } }] := by
  refine ⟨rfl, ?_, ?_, ?_, ?_, ?_⟩
  · by_cases h : span.column.gtZero <;> simp [buildRegion, h]
  · by_cases h : span.column.gtZero <;> simp [buildRegion, h]
  · by_cases h : span.length.gtZero <;> simp [buildRegion, h]
  · by_cases h : span.length.gtZero <;> simp [buildRegion, h]
  · obtain ⟨hr, hget⟩ := logResults_get rep tv i hi
    refine ⟨hr, ?_⟩
    rw [hget, setRuleIndex_locations]
    show (mkResult (rep.diagnostics.get ⟨i, hi⟩)).locations = _
    rw [List.get_eq_getElem] at hlab
    simp [mkResult, hlab]

theorem convertDiags_ids_mono (rules : List SarifRule) (ds : List OxlintDiagnostic) :
    ∀ x ∈ rules.map SarifRule.id, x ∈ ((convertDiags rules ds).1).map SarifRule.id := by
  induction ds generalizing rules with
  | nil => intro x hx; exact hx
  | cons d ds ih =>
    intro x hx
    simp only [convertDiags]
    by_cases h : ruleIdOf d ∈ rules.map SarifRule.id
    · rw [if_pos h]; exact ih rules x hx
    · rw [if_neg h]
      refine ih _ x ?_
      rw [List.map_append]
      exact List.mem_append_left _ hx

theorem convertDiags_mem_ids (rules : List SarifRule) (ds : List OxlintDiagnostic) :
    ∀ d ∈ ds, ruleIdOf d ∈ ((convertDiags rules ds).1).map SarifRule.id := by
  induction ds generalizing rules with
  | nil => intro d hd; cases hd
  | cons e ds ih =>
    intro d hd
    simp only [convertDiags]
    rcases List.mem_cons.mp hd with rfl | hd2
    · apply convertDiags_ids_mono
      by_cases h : ruleIdOf d ∈ rules.map SarifRule.id
      · rw [if_pos h]; exact h
      · rw [if_neg h]
        rw [List.map_append]
        refine List.mem_append_right _ ?_
        show ruleIdOf d ∈ [mkRule d].map SarifRule.id
        simp [mkRule]
    · exact ih _ d hd2

theorem firstRuleIdx_spec (rid : String) (rules : List SarifRule)
    (h : rid ∈ rules.map SarifRule.id) :
    ∃ j, firstRuleIdx rid rules = some j ∧ ∃ hj : j < rules.length,
      (rules.get ⟨j, hj⟩).id = rid ∧
      ∀ k, ∀ hk : k < j, (rules.get ⟨k, Nat.lt_trans hk hj⟩).id ≠ rid := by
  induction rules with
  | nil => simp at h
  | cons r rs ih =>
    by_cases hr : r.id = rid
    · refine ⟨0, ?_, Nat.succ_pos _, hr, ?_⟩
      · rw [firstRuleIdx, if_pos hr]
      · intro k hk
        exact absurd hk (Nat.not_lt_zero k)
    · have h2 : rid ∈ rs.map SarifRule.id := by
        rw [List.map_cons] at h
        rcases List.mem_cons.mp h with h3 | h3
        · exact absurd h3.symm hr
        · exact h3
      obtain ⟨j, hfind, hj, hid, hlt⟩ := ih h2
      refine ⟨j + 1, ?_, Nat.succ_lt_succ hj, hid, ?_⟩
      · rw [firstRuleIdx, if_neg hr, hfind]
        rfl
      · intro k hk
        match k, hk with
        | 0, _ => exact hr
        | k + 1, hk => exact hlt k (Nat.lt_of_succ_lt_succ hk)

/-- C1: for every Report and every diagnostic in it, the SARIF result built
by convertToSarif has ruleId equal to the diagnostic's rule identifier (the
diagnostic's code, or "UnknownRule" when code is empty) and a ruleIndex
equal to the zero-based position of that rule's descriptor in
tool.driver.rules (the index assigned at first registration: no earlier
descriptor carries the same id). -/
theorem C1_rule_id_and_index (rep : OxlintReport) (tv : Option String) (i : Nat)
    (hi : i < rep.diagnostics.length) :
    ∃ hr : i < (logResults (convertToSarif rep tv)).length,
      ((logResults (convertToSarif rep tv)).get ⟨i, hr⟩).ruleId =
        ruleIdOf (rep.diagnostics.get ⟨i, hi⟩) ∧
      ∃ j, ((logResults (convertToSarif rep tv)).get ⟨i, hr⟩).ruleIndex = some j ∧
        ∃ hj : j < (logRules (convertToSarif rep tv)).length,
          ((logRules (convertToSarif rep tv)).get ⟨j, hj⟩).id =
            ruleIdOf (rep.diagnostics.get ⟨i, hi⟩) ∧
          ∀ k, ∀ hk : k < j,
            ((logRules (convertToSarif rep tv)).get ⟨k, Nat.lt_trans hk hj⟩).id ≠
              ruleIdOf (rep.diagnostics.get ⟨i, hi⟩) := by
  obtain ⟨hr, hget⟩ := logResults_get rep tv i hi
  have hmem : ruleIdOf (rep.diagnostics.get ⟨i, hi⟩) ∈
      ((convertDiags [] rep.diagnostics).1).map SarifRule.id :=
    convertDiags_mem_ids [] rep.diagnostics _ (List.get_mem _ _ _)
  obtain ⟨j, hfind, hj, hid, hlt⟩ := firstRuleIdx_spec _ _ hmem
  refine ⟨hr, ?_, j, ?_, ?_⟩
  · rw [hget, setRuleIndex_ruleId]
    rfl
  · rw [hget]
    show (setRuleIndex (convertDiags [] rep.diagnostics).1
      (mkResult (rep.diagnostics.get ⟨i, hi⟩))).ruleIndex = some j
    unfold setRuleIndex
    have hrid : (mkResult (rep.diagnostics.get ⟨i, hi⟩)).ruleId =
        ruleIdOf (rep.diagnostics.get ⟨i, hi⟩) := rfl
    rw [hrid, hfind]
  · rw [logRules_convert]
    exact ⟨hj, hid, hlt⟩

/-- The distinct elements of a list in first-seen order, skipping those
already in `seen` (the spec-side description of the rule registry's key
sequence). -/
def firstSeenFrom (seen : List String) : List String → List String
  | [] => []
  | x :: xs =>
    if x ∈ seen then firstSeenFrom seen xs
    else x :: firstSeenFrom (seen ++ [x]) xs

theorem mem_firstSeenFrom (a : String) :
    ∀ (xs seen : List String), a ∈ firstSeenFrom seen xs ↔ a ∈ xs ∧ a ∉ seen := by
  intro xs
  induction xs with
  | nil => intro seen; simp [firstSeenFrom]
  | cons x xs ih =>
    intro seen
    by_cases hx : x ∈ seen
    · rw [firstSeenFrom, if_pos hx, ih]
      constructor
      · rintro ⟨h1, h2⟩
        exact ⟨List.mem_cons_of_mem x h1, h2⟩
      · rintro ⟨h1, h2⟩
        rcases List.mem_cons.mp h1 with rfl | h3
        · exact absurd hx h2
        · exact ⟨h3, h2⟩
    · rw [firstSeenFrom, if_neg hx]
      constructor
      · intro h1
        rcases List.mem_cons.mp h1 with rfl | h3
        · exact ⟨List.mem_cons_self a xs, hx⟩
        · obtain ⟨h4, h5⟩ := (ih _).mp h3
          simp only [List.mem_append, List.mem_singleton] at h5
          push_neg at h5
          exact ⟨List.mem_cons_of_mem x h4, h5.1⟩
      · rintro ⟨h1, h2⟩
        rcases List.mem_cons.mp h1 with rfl | h3
        · exact List.mem_cons_self a _
        · by_cases hax : a = x
          · subst hax; exact List.mem_cons_self a _
          · refine List.mem_cons_of_mem x ((ih _).mpr ⟨h3, ?_⟩)
            simp only [List.mem_append, List.mem_singleton]
            push_neg
            exact ⟨h2, hax⟩

theorem nodup_firstSeenFrom : ∀ (xs seen : List String), (firstSeenFrom seen xs).Nodup := by
  intro xs
  induction xs with
  | nil => intro seen; simp [firstSeenFrom]
  | cons x xs ih =>
    intro seen
    by_cases hx : x ∈ seen
    · rw [firstSeenFrom, if_pos hx]; exact ih seen
    · rw [firstSeenFrom, if_neg hx]
      refine List.nodup_cons.mpr ⟨?_, ih _⟩
      intro hmem
      obtain ⟨_, h2⟩ := (mem_firstSeenFrom x xs _).mp hmem
      simp at h2

theorem convertDiags_ids (rules : List SarifRule) (ds : List OxlintDiagnostic) :
    ((convertDiags rules ds).1).map SarifRule.id =
      rules.map SarifRule.id ++ firstSeenFrom (rules.map SarifRule.id) (ds.map ruleIdOf) := by
  induction ds generalizing rules with
  | nil => simp [convertDiags, firstSeenFrom]
  | cons d ds ih =>
    simp only [convertDiags, List.map_cons]
    by_cases h : ruleIdOf d ∈ rules.map SarifRule.id
    · rw [if_pos h, firstSeenFrom, if_pos h, ih]
    · rw [if_neg h, firstSeenFrom, if_neg h, ih]
      have hids : (rules ++ [mkRule d]).map SarifRule.id =
          rules.map SarifRule.id ++ [ruleIdOf d] := by
        rw [List.map_append]
        rfl
      rw [hids]
      rw [List.append_assoc]
      rfl

theorem convertDiags_rules_content (ds : List OxlintDiagnostic) :
    ∀ (rules : List SarifRule) (r : SarifRule), r ∈ (convertDiags rules ds).1 →
      r ∈ rules ∨ (r.id ∉ rules.map SarifRule.id ∧
        ∃ d, ds.find? (fun x => decide (ruleIdOf x = r.id)) = some d ∧ r = mkRule d) := by
  induction ds with
  | nil => intro rules r hr; exact Or.inl hr
  | cons d ds ih =>
    intro rules r hr
    simp only [convertDiags] at hr
    by_cases h : ruleIdOf d ∈ rules.map SarifRule.id
    · rw [if_pos h] at hr
      rcases ih rules r hr with h1 | ⟨h2, d2, h3, h4⟩
      · exact Or.inl h1
      · refine Or.inr ⟨h2, d2, ?_, h4⟩
        rw [List.find?_cons_of_neg, h3]
        simp only [decide_eq_true_eq]
        intro he
        rw [he] at h
        exact h2 h
    · rw [if_neg h] at hr
      rcases ih _ r hr with h1 | ⟨h2, d2, h3, h4⟩
      · rcases List.mem_append.mp h1 with h5 | h5
        · exact Or.inl h5
        · have hrd : r = mkRule d := List.mem_singleton.mp h5
          refine Or.inr ⟨?_, d, ?_, hrd⟩
          · rw [hrd]
            show ruleIdOf d ∉ rules.map SarifRule.id
            exact h
          · rw [List.find?_cons_of_pos]
            simp [hrd, mkRule]
      · have hne : ruleIdOf d ≠ r.id := by
          intro he
          apply h2
          rw [List.map_append]
          refine List.mem_append_right _ ?_
          rw [← he]
          simp [mkRule]
        refine Or.inr ⟨?_, d2, ?_, h4⟩
        · intro hmem
          apply h2
          rw [List.map_append]
          exact List.mem_append_left _ hmem
        · rw [List.find?_cons_of_neg, h3]
          simpa using hne

/-- C3 (amended): the rules list contains exactly one descriptor per
distinct rule identifier occurring among the diagnostics, in first-seen
order; the descriptor's id and short description both equal the identifier
and the descriptor is `mkRule` of the first diagnostic with that
identifier, whose url becomes helpUri only when present AND non-empty, and
whose help becomes help.text only when present AND non-empty (the source
gates both on JavaScript truthiness, so an empty string is dropped); later
diagnostics with the same code never create a second descriptor. -/
theorem C3_rule_registry_amended (rep : OxlintReport) (tv : Option String) :
    (convertToSarif rep tv).runs.length = 1 ∧
    (logRules (convertToSarif rep tv)).map SarifRule.id =
      firstSeenFrom [] (rep.diagnostics.map ruleIdOf) ∧
    ((logRules (convertToSarif rep tv)).map SarifRule.id).Nodup ∧
    (∀ rid, rid ∈ (logRules (convertToSarif rep tv)).map SarifRule.id ↔
      rid ∈ rep.diagnostics.map ruleIdOf) ∧
    ∀ r ∈ logRules (convertToSarif rep tv),
      r.shortDescription.text = r.id ∧
      ∃ d, rep.diagnostics.find? (fun x => decide (ruleIdOf x = r.id)) = some d ∧
        r = mkRule d := by
  have hrules := logRules_convert rep tv
  have hids := convertDiags_ids [] rep.diagnostics
  simp only [List.map_nil, List.nil_append] at hids
  refine ⟨rfl, ?_, ?_, ?_, ?_⟩
  · rw [hrules]; exact hids
  · rw [hrules, hids]; exact nodup_firstSeenFrom _ _
  · intro rid
    rw [hrules, hids, mem_firstSeenFrom]
    simp
  · intro r hr
    rw [hrules] at hr
    rcases convertDiags_rules_content rep.diagnostics [] r hr with h1 | ⟨_, d, h2, h3⟩
    · cases h1
    · refine ⟨?_, d, h2, h3⟩
      rw [h3]
      rfl

/-- Report with a single diagnostic whose url and help are present but
empty. -/
def c3diag : OxlintDiagnostic :=
  { message := "m"
    code := "r1"
    severity := .warning
    causes := []
    url := some ""
    help := some ""
    filename := "a.ts"
    labels := []
    related := [] }

/-- Report wrapping `c3diag`. -/
def c3rep : OxlintReport :=
  { diagnostics := [c3diag]
    number_of_files := .val 1
    number_of_rules := none
    threads_count := .val 1
    start_time := .val 0 }

/-- C3 counterexample: a diagnostic whose url (and help) is present but
equal to the empty string produces a rule descriptor with NO helpUri and NO
help, contradicting the claim that the descriptor's helpUri is the first
such diagnostic's url "when present". -/
theorem C3_help_uri_counterexample :
    c3rep.diagnostics.map OxlintDiagnostic.url = [some ""] ∧
    c3rep.diagnostics.map OxlintDiagnostic.help = [some ""] ∧
    (logRules (convertToSarif c3rep none)).map SarifRule.helpUri = [none] ∧
    (logRules (convertToSarif c3rep none)).map SarifRule.help = [none] ∧
    (logRules (convertToSarif c3rep none)).map SarifRule.helpUri ≠ [some ""] := by
  refine ⟨by decide, by decide, by decide, by decide, by decide⟩

/-- Report with one diagnostic carrying a non-empty url and help. -/
def c3wdiag : OxlintDiagnostic :=
  { message := "m"
    code := "r1"
    severity := .error
    causes := []
    url := some "https://example.invalid/r1"
    help := some "fix it"
    filename := "a.ts"
    labels := []
    related := [] }

/-- Report wrapping `c3wdiag`. -/
def c3wrep : OxlintReport :=
  { diagnostics := [c3wdiag]
    number_of_files := .val 1
    number_of_rules := none
    threads_count := .val 1
    start_time := .val 0 }

/-- The rule descriptor expected for `c3wrep`. -/
def c3wrule : SarifRule :=
  { id := "r1", shortDescription := { text := "r1" },
    helpUri := some "https://example.invalid/r1", help := some { text := "fix it" } }

theorem C3_rule_registry_amended_witness :
    (convertToSarif c3wrep none).runs.length = 1 ∧
    c3wrule.shortDescription.text = c3wrule.id ∧
    ∃ d, c3wrep.diagnostics.find? (fun x => decide (ruleIdOf x = c3wrule.id)) = some d ∧
      c3wrule = mkRule d := by
  obtain ⟨h1, _, _, _, h5⟩ := C3_rule_registry_amended c3wrep none
  have hm : logRules (convertToSarif c3wrep none) = [c3wrule] := by decide
  obtain ⟨h6, h7⟩ := h5 c3wrule (by rw [hm]; exact List.mem_singleton_self _)
  exact ⟨h1, h6, h7⟩

theorem buildRelatedLocations_length (ls : List OxlintLabel) (f : String) :
    ∀ id, (buildRelatedLocations ls f id).length = ls.length := by
  induction ls with
  | nil => intro id; rfl
  | cons l ls ih => intro id; simp [buildRelatedLocations, ih]

theorem buildRelatedLocations_get (ls : List OxlintLabel) (f : String) :
    ∀ (id k : Nat) (hk : k < (buildRelatedLocations ls f id).length) (hk2 : k < ls.length),
      (buildRelatedLocations ls f id).get ⟨k, hk⟩ =
        buildRelatedLocation (ls.get ⟨k, hk2⟩) f (id + k) := by
  induction ls with
  | nil => intro id k hk hk2; cases hk2
  | cons l ls ih =>
    intro id k hk hk2
    cases k with
    | zero => rfl
    | succ k =>
      have hk3 : k < (buildRelatedLocations ls f (id + 1)).length := by
        rw [buildRelatedLocations_length]
        exact Nat.lt_of_succ_lt_succ hk2
      have step : (buildRelatedLocations (l :: ls) f id).get ⟨k + 1, hk⟩ =
          (buildRelatedLocations ls f (id + 1)).get ⟨k, hk3⟩ := rfl
      rw [step, ih (id + 1) k hk3 (Nat.lt_of_succ_lt_succ hk2)]
      have harith : id + 1 + k = id + (k + 1) := by omega
      rw [harith]
      rfl

/-- C8 (amended): a diagnostic with K labels has relatedLocations present
iff K >= 2, of length K-1, built in order from the labels at indices
1..K-1; each entry has 1-based sequential id, the same file's artifact URI,
a region from that label's span, and a message.text equal to the label's own
text when the text is present AND non-empty (the source gates the message on
JavaScript truthiness, so a label whose text is the empty string yields no
message); with 0 or 1 labels relatedLocations is omitted entirely. -/
theorem C8_related_locations_amended (rep : OxlintReport) (tv : Option String) (i : Nat)
    (hi : i < rep.diagnostics.length) :
    ∃ hr : i < (logResults (convertToSarif rep tv)).length,
      ((rep.diagnostics.get ⟨i, hi⟩).labels.length ≤ 1 →
        ((logResults (convertToSarif rep tv)).get ⟨i, hr⟩).relatedLocations = none) ∧
      (2 ≤ (rep.diagnostics.get ⟨i, hi⟩).labels.length →
        ∃ locs,
          ((logResults (convertToSarif rep tv)).get ⟨i, hr⟩).relatedLocations = some locs ∧
          locs = buildRelatedLocations ((rep.diagnostics.get ⟨i, hi⟩).labels.drop 1)
            (rep.diagnostics.get ⟨i, hi⟩).filename 1 ∧
          locs.length = (rep.diagnostics.get ⟨i, hi⟩).labels.length - 1 ∧
          ∀ k, ∀ hk : k < locs.length,
            (locs.get ⟨k, hk⟩).id = some (k + 1) ∧
            (locs.get ⟨k, hk⟩).physicalLocation.artifactLocation.uri =
              pathToUri (rep.diagnostics.get ⟨i, hi⟩).filename ∧
            ∃ hk2 : k + 1 < (rep.diagnostics.get ⟨i, hi⟩).labels.length,
              (locs.get ⟨k, hk⟩).physicalLocation.region =
                some (buildRegion (((rep.diagnostics.get ⟨i, hi⟩).labels.get ⟨k + 1, hk2⟩).span)) ∧
              (locs.get ⟨k, hk⟩).message =
                (match ((rep.diagnostics.get ⟨i, hi⟩).labels.get ⟨k + 1, hk2⟩).label with
                 | some t => if t = "" then none else some { text := t }
                 | none => none)) := by
  obtain ⟨hr, hget⟩ := logResults_get rep tv i hi
  refine ⟨hr, ?_, ?_⟩
  · intro hle
    rw [hget, setRuleIndex_relatedLocations]
    show (if 1 < (rep.diagnostics.get ⟨i, hi⟩).labels.length then _ else none) = none
    rw [if_neg (by omega)]
  · intro hge
    rw [hget, setRuleIndex_relatedLocations]
    refine ⟨buildRelatedLocations ((rep.diagnostics.get ⟨i, hi⟩).labels.drop 1)
      (rep.diagnostics.get ⟨i, hi⟩).filename 1, ?_, rfl, ?_, ?_⟩
    · show (if 1 < (rep.diagnostics.get ⟨i, hi⟩).labels.length then _ else none) = _
      rw [if_pos (by omega)]
    · rw [buildRelatedLocations_length, List.length_drop]
    · intro k hk
      have hklen : k < ((rep.diagnostics.get ⟨i, hi⟩).labels.drop 1).length := by
        rw [buildRelatedLocations_length] at hk
        exact hk
      have hk2 : k + 1 < (rep.diagnostics.get ⟨i, hi⟩).labels.length := by
        rw [List.length_drop] at hklen
        omega
      have hdrop : ((rep.diagnostics.get ⟨i, hi⟩).labels.drop 1).get ⟨k, hklen⟩ =
          (rep.diagnostics.get ⟨i, hi⟩).labels.get ⟨k + 1, hk2⟩ := by
        have h3 := List.get_drop (rep.diagnostics.get ⟨i, hi⟩).labels
          (show 1 + k < (rep.diagnostics.get ⟨i, hi⟩).labels.length by omega)
        rw [← h3]
        exact congrArg _ (Fin.ext (show 1 + k = k + 1 by omega))
      rw [buildRelatedLocations_get _ _ 1 k hk hklen, hdrop]
      refine ⟨?_, rfl, hk2, rfl, rfl⟩
      show some (1 + k) = some (k + 1)
      rw [Nat.add_comm]

/-- A span used by the C8 inputs. -/
def c8span : OxlintSpan :=
  { offset := .val 0, length := .val 1, line := .val 1, column := .val 1 }

/-- Diagnostic with two labels whose second label text is the empty
string. -/
def c8diag : OxlintDiagnostic :=
  { message := "m"
    code := "r"
    severity := .warning
    causes := []
    filename := "f.ts"
    labels := [{ span := c8span }, { label := some "", span := c8span }]
    related := [] }

/-- Report wrapping `c8diag`. -/
def c8rep : OxlintReport :=
  { diagnostics := [c8diag]
    number_of_files := .val 1
    number_of_rules := none
    threads_count := .val 1
    start_time := .val 0 }

/-- C8 counterexample: the second label's text is present (the empty
string), yet the related location built for it carries NO message, where the
claim requires message.text to equal the label's own text whenever the text
is present. -/
theorem C8_related_locations_counterexample :
    c8rep.diagnostics.map (fun d => d.labels.map OxlintLabel.label) = [[none, some ""]] ∧
    (logResults (convertToSarif c8rep none)).map
      (fun r => r.relatedLocations.map (fun ls => ls.map SarifLocation.message)) =
      [some [none]] ∧
    some { text := "" } ≠ (none : Option SarifMessage) := by
  refine ⟨by decide, by decide, by decide⟩

/-- Diagnostic with three labels (second with non-empty text, third with no
text). -/
def c8wdiag : OxlintDiagnostic :=
  { message := "m"
    code := "r"
    severity := .warning
    causes := []
    filename := "f.ts"
    labels := [{ span := c8span }, { label := some "t1", span := c8span }, { span := c8span }]
    related := [] }

/-- Report wrapping `c8wdiag`. -/
def c8wrep : OxlintReport :=
  { diagnostics := [c8wdiag]
    number_of_files := .val 1
    number_of_rules := none
    threads_count := .val 1
    start_time := .val 0 }

theorem C8_related_locations_amended_witness :
    ∃ hr : 0 < (logResults (convertToSarif c8wrep none)).length,
      ((logResults (convertToSarif c8wrep none)).get ⟨0, hr⟩).relatedLocations =
        some (buildRelatedLocations (c8wdiag.labels.drop 1) c8wdiag.filename 1) := by
  obtain ⟨hr, _, h2⟩ := C8_related_locations_amended c8wrep none 0 (by decide)
  obtain ⟨locs, hsome, heq, _, _⟩ := h2 (by decide)
  refine ⟨hr, ?_⟩
  rw [hsome, heq]
  rfl

/-- Two diagnostics sharing the rule code "r1". -/
def c1diagA : OxlintDiagnostic :=
  { message := "m1"
    code := "r1"
    severity := .error
    causes := []
    filename := "a.ts"
    labels := []
    related := [] }

/-- Second diagnostic with the same code as `c1diagA`. -/
def c1diagB : OxlintDiagnostic :=
  { message := "m2"
    code := "r1"
    severity := .warning
    causes := []
    filename := "b.ts"
    labels := []
    related := [] }

/-- Report wrapping `c1diagA` and `c1diagB`. -/
def c1rep : OxlintReport :=
  { diagnostics := [c1diagA, c1diagB]
    number_of_files := .val 2
    number_of_rules := none
    threads_count := .val 1
    start_time := .val 0 }

theorem C1_rule_id_and_index_witness :
    ∃ hr : 1 < (logResults (convertToSarif c1rep none)).length,
      ((logResults (convertToSarif c1rep none)).get ⟨1, hr⟩).ruleId = "r1" ∧
      ((logResults (convertToSarif c1rep none)).get ⟨1, hr⟩).ruleIndex = some 0 := by
  obtain ⟨hr, h1, j, h2, hj, h3, h4⟩ := C1_rule_id_and_index c1rep none 1 (by decide)
  have hlen : (logRules (convertToSarif c1rep none)).length = 1 := by decide
  have hj0 : j = 0 := by omega
  refine ⟨hr, ?_, ?_⟩
  · rw [h1]
    decide
  · rw [h2, hj0]

/-- Diagnostic with an unknown severity already normalized to warning. -/
def c2diag : OxlintDiagnostic :=
  { message := "m"
    code := "c"
    severity := .warning
    causes := []
    filename := "f.ts"
    labels := []
    related := [] }

/-- Report wrapping `c2diag`. -/
def c2rep : OxlintReport :=
  { diagnostics := [c2diag]
    number_of_files := .val 1
    number_of_rules := none
    threads_count := .val 1
    start_time := .val 0 }

/-- The single result produced for `c2rep`. -/
def c2result : SarifResult :=
  setRuleIndex (convertDiags [] c2rep.diagnostics).1 (mkResult c2diag)

theorem C2_severity_totality_witness :
    normalizeOxlintSeverity "CUSTOM" = OxlintSeverity.warning ∧
    (c2result.level = "error" ∨ c2result.level = "warning") := by
  obtain ⟨_, _, _, h4, _, _, h7⟩ := C2_severity_totality
  refine ⟨h4 "CUSTOM" (by decide), h7 c2rep none c2result ?_⟩
  have hm : logResults (convertToSarif c2rep none) = [c2result] := by decide
  rw [hm]
  exact List.mem_singleton_self _

/-- Span with zero column and zero length. -/
def c7span : OxlintSpan :=
  { offset := .val 0, length := .val 0, line := .val 7, column := .val 0 }

/-- Diagnostic with no labels. -/
def c7diag : OxlintDiagnostic :=
  { message := "m"
    code := "r7"
    severity := .error
    causes := []
    filename := "f7.ts"
    labels := []
    related := [] }

/-- Report wrapping `c7diag`. -/
def c7rep : OxlintReport :=
  { diagnostics := [c7diag]
    number_of_files := .val 1
    number_of_rules := none
    threads_count := .val 1
    start_time := .val 0 }

theorem C7_region_rules_witness :
    (buildRegion c7span).startLine = JsNum.val 7 ∧
    (buildRegion c7span).startColumn = none ∧
    (buildRegion c7span).endColumn = none ∧
    ∃ hr : 0 < (logResults (convertToSarif c7rep none)).length,
      ((logResults (convertToSarif c7rep none)).get ⟨0, hr⟩).locations =
        [{ physicalLocation := { artifactLocation := { uri := "f7.ts" }, region := none } }] := by
  obtain ⟨h1, _, h3, _, h5, hr, h6⟩ := C7_region_rules c7span c7rep none 0 (by decide) (by decide)
  refine ⟨?_, h3.mpr (by decide), h5.mpr (by decide), hr, ?_⟩
  · rw [h1]
    rfl
  · rw [h6]
    decide

/-- Diagnostic with non-empty causes and related entries. -/
def c10diagA : OxlintDiagnostic :=
  { message := "m"
    code := "r"
    severity := .error
    causes := ["cause one", "cause two"]
    filename := "f.ts"
    labels := []
    related := [{ message := some "rel", labels := some [] }] }

/-- The same diagnostic with causes and related cleared. -/
def c10diagB : OxlintDiagnostic :=
  { message := "m"
    code := "r"
    severity := .error
    causes := []
    filename := "f.ts"
    labels := []
    related := [] }

/-- Report wrapping `c10diagA`. -/
def c10repA : OxlintReport :=
  { diagnostics := [c10diagA]
    number_of_files := .val 1
    number_of_rules := none
    threads_count := .val 1
    start_time := .val 0 }

/-- Report wrapping `c10diagB`. -/
def c10repB : OxlintReport :=
  { diagnostics := [c10diagB]
    number_of_files := .val 1
    number_of_rules := none
    threads_count := .val 1
    start_time := .val 0 }

theorem C10_causes_related_noninterference_witness :
    convertToSarif c10repA none = convertToSarif c10repB none :=
  C10_causes_related_noninterference c10repA c10repB none (by decide)

theorem jsCoalesce_some_ne_null (v dflt : Json) (h : v ≠ Json.null) :
    jsCoalesce (some v) dflt = v := by
  cases v
  · exact absurd rfl h
  all_goals rfl

/-- C4 (amended): each span field of a parsed label is independently
defaulted (offset 0, length 0, line 1, column 1) when the raw field is
missing or null; a present non-null value is instead coerced with
JavaScript Number semantics, which yields NaN — not the default — on
non-numeric values; the label's own text is kept exactly when the raw label
field is already a string. -/
theorem C4_label_parsing_amended (l : Json) :
    ((labelSpanField l "offset" = none ∨ labelSpanField l "offset" = some Json.null) →
      (parseLabel l).span.offset = JsNum.val 0) ∧
    ((labelSpanField l "length" = none ∨ labelSpanField l "length" = some Json.null) →
      (parseLabel l).span.length = JsNum.val 0) ∧
    ((labelSpanField l "line" = none ∨ labelSpanField l "line" = some Json.null) →
      (parseLabel l).span.line = JsNum.val 1) ∧
    ((labelSpanField l "column" = none ∨ labelSpanField l "column" = some Json.null) →
      (parseLabel l).span.column = JsNum.val 1) ∧
    (∀ v, labelSpanField l "offset" = some v → v ≠ Json.null →
      (parseLabel l).span.offset = jsToNumber v) ∧
    (∀ v, labelSpanField l "length" = some v → v ≠ Json.null →
      (parseLabel l).span.length = jsToNumber v) ∧
    (∀ v, labelSpanField l "line" = some v → v ≠ Json.null →
      (parseLabel l).span.line = jsToNumber v) ∧
    (∀ v, labelSpanField l "column" = some v → v ≠ Json.null →
      (parseLabel l).span.column = jsToNumber v) ∧
    ((parseLabel l).label = match Json.getField l "label" with
      | some (Json.str s) => some s
      | _ => none) := by
  refine ⟨?_, ?_, ?_, ?_, ?_, ?_, ?_, ?_, rfl⟩
  · rintro (h | h) <;>
      (show jsToNumber (jsCoalesce (labelSpanField l "offset") (Json.num 0)) = _
       rw [h]
       rfl)
  · rintro (h | h) <;>
      (show jsToNumber (jsCoalesce (labelSpanField l "length") (Json.num 0)) = _
       rw [h]
       rfl)
  · rintro (h | h) <;>
      (show jsToNumber (jsCoalesce (labelSpanField l "line") (Json.num 1)) = _
       rw [h]
       rfl)
  · rintro (h | h) <;>
      (show jsToNumber (jsCoalesce (labelSpanField l "column") (Json.num 1)) = _
       rw [h]
       rfl)
  · intro v hv hn
    show jsToNumber (jsCoalesce (labelSpanField l "offset") (Json.num 0)) = _
    rw [hv, jsCoalesce_some_ne_null v _ hn]
  · intro v hv hn
    show jsToNumber (jsCoalesce (labelSpanField l "length") (Json.num 0)) = _
    rw [hv, jsCoalesce_some_ne_null v _ hn]
  · intro v hv hn
    show jsToNumber (jsCoalesce (labelSpanField l "line") (Json.num 1)) = _
    rw [hv, jsCoalesce_some_ne_null v _ hn]
  · intro v hv hn
    show jsToNumber (jsCoalesce (labelSpanField l "column") (Json.num 1)) = _
    rw [hv, jsCoalesce_some_ne_null v _ hn]

/-- Raw label whose span has a non-numeric `line` value. -/
def c4label : Json := Json.obj [("span", Json.obj [("line", Json.str "abc")])]

/-- C4 counterexample: a span field that is present but non-numeric is NOT
defaulted — `line: "abc"` is coerced to NaN rather than to the documented
default 1. -/
theorem C4_span_default_counterexample :
    labelSpanField c4label "line" = some (Json.str "abc") ∧
    (parseLabel c4label).span.line = JsNum.nan ∧
    JsNum.nan ≠ JsNum.val 1 := by
  refine ⟨rfl, by decide, by decide⟩

/-- Raw label with a numeric offset, a null line, a missing column and a
string label text. -/
def c4wlabel : Json :=
  Json.obj [("span", Json.obj [("offset", Json.num 7), ("line", Json.null)]),
    ("label", Json.str "t")]

/-- Raw label whose span is the string "abc": its only present span field is
the string's own length property (3); the other span fields are absent. -/
def c4slabel : Json := Json.obj [("span", Json.str "abc")]

theorem C4_label_parsing_amended_witness :
    (parseLabel c4wlabel).span.offset = JsNum.val 7 ∧
    (parseLabel c4wlabel).span.line = JsNum.val 1 ∧
    (parseLabel c4wlabel).span.column = JsNum.val 1 ∧
    (parseLabel c4wlabel).label = some "t" ∧
    (parseLabel c4slabel).span.length = JsNum.val 3 ∧
    (parseLabel c4slabel).span.offset = JsNum.val 0 := by
  obtain ⟨_, _, h3, h4, h5, _, _, _, h9⟩ := C4_label_parsing_amended c4wlabel
  obtain ⟨g1, _, _, _, _, g6, _, _, _⟩ := C4_label_parsing_amended c4slabel
  refine ⟨?_, h3 (Or.inr rfl), h4 (Or.inl rfl), ?_, ?_, g1 (Or.inl rfl)⟩
  · rw [h5 (Json.num 7) rfl (fun h => Json.noConfusion h)]
    rfl
  · rw [h9]
    rfl
  · rw [g6 (Json.num 3) rfl (fun h => Json.noConfusion h)]
    rfl

theorem dropWhile_head_false {α : Type} {p : α → Bool} :
    ∀ {l : List α} {c : α} {rest : List α}, l.dropWhile p = c :: rest → p c = false := by
  intro l
  induction l with
  | nil => intro c rest h; simp [List.dropWhile] at h
  | cons a l ih =>
    intro c rest h
    rw [List.dropWhile_cons] at h
    by_cases hpa : p a
    · rw [if_pos hpa] at h
      exact ih h
    · rw [if_neg hpa] at h
      injection h with h1 h2
      subst h1
      simpa using hpa

theorem jsTrim_empty_all_ws (s : String) (h : jsTrim s = "") :
    ∀ c ∈ s.data, jsIsWhitespace c = true := by
  have hl : jsTrimList s.data = [] := by
    have h2 : (String.mk (jsTrimList s.data)).data = ("" : String).data := congrArg String.data h
    simpa using h2
  unfold jsTrimList at hl
  rw [List.reverse_eq_nil_iff, List.dropWhile_eq_nil_iff] at hl
  intro c hc
  have hsplit := List.takeWhile_append_dropWhile (p := jsIsWhitespace) (l := s.data)
  rw [← hsplit] at hc
  rcases List.mem_append.mp hc with h1 | h1
  · exact List.mem_takeWhile_imp h1
  · exact hl c (List.mem_reverse.mpr h1)

theorem parseValue_all_ws_none (fuel : Nat) (cs : List Char)
    (h : ∀ c ∈ cs, jsIsWhitespace c = true) :
    parseValue fuel (skipJsonWs cs) = none := by
  cases hd : skipJsonWs cs with
  | nil => cases fuel <;> rfl
  | cons c rest =>
    have hcdrop : c ∈ List.dropWhile isJsonWs cs := by
      have he : skipJsonWs cs = List.dropWhile isJsonWs cs := rfl
      rw [← he, hd]
      exact List.mem_cons_self c rest
    have hws : jsIsWhitespace c = true :=
      h c ((List.dropWhile_sublist isJsonWs).subset hcdrop)
    have hnj : isJsonWs c = false := dropWhile_head_false hd
    cases fuel with
    | zero => rfl
    | succ fuel =>
      have h1 : ¬ (c = '"') := by rintro rfl; exact absurd hws (by decide)
      have h2 : ¬ (c = '{') := by rintro rfl; exact absurd hws (by decide)
      have h3 : ¬ (c = '[') := by rintro rfl; exact absurd hws (by decide)
      have h4 : ¬ (c = 't') := by rintro rfl; exact absurd hws (by decide)
      have h5 : ¬ (c = 'f') := by rintro rfl; exact absurd hws (by decide)
      have h6 : ¬ (c = 'n') := by rintro rfl; exact absurd hws (by decide)
      have h7 : ¬ (c = '-') := by rintro rfl; exact absurd hws (by decide)
      have h8 : isDigitChar c = false := by
        cases hb : isDigitChar c
        · rfl
        · exfalso
          simp [jsIsWhitespace] at hws
          simp [isDigitChar] at hb
          omega
      simp [parseValue, h1, h2, h3, h4, h5, h6, h7, h8]

theorem parse_none_of_trim_empty (s : String) (h : jsTrim s = "") : Json.parse s = none := by
  unfold Json.parse
  rw [parseValue_all_ws_none _ _ (jsTrim_empty_all_ws s h)]

/-- C5: for every JSON document whose root is an object with a diagnostics
array, parseOxlintJson never fails: any element of the diagnostics array
missing one of the keys message, code, severity, filename is silently
dropped (not defaulted), and elements with all four keys are admitted with
their fields independently defaulted or coerced by `parseDiagnostic`. -/
theorem C5_admission_filter (s : String) (v : Json) (ds : List Json)
    (hp : Json.parse s = some v) (hd : getDiagnostics v = some ds) :
    parseOxlintJson s = Except.ok (buildReport v ds) ∧
    (buildReport v ds).diagnostics = (ds.filter isOxlintDiagnostic).map parseDiagnostic ∧
    ∀ d : Json, isOxlintDiagnostic d = true ↔
      ((∃ members, d = Json.obj members) ∧
        (Json.getField d "message").isSome = true ∧
        (Json.getField d "code").isSome = true ∧
        (Json.getField d "severity").isSome = true ∧
        (Json.getField d "filename").isSome = true) := by
  refine ⟨?_, rfl, ?_⟩
  · have hne : ¬ (jsTrim s = "") := by
      intro he
      rw [parse_none_of_trim_empty s he] at hp
      cases hp
    unfold parseOxlintJson
    simp only [if_neg hne, hp, hd]
  · intro d
    cases d <;> simp [isOxlintDiagnostic, Bool.and_eq_true, and_assoc]

/-- C6: parseOxlintJson fails exactly when one of three conditions holds,
checked in this order: empty or all-whitespace input raises EmptyInput
before any JSON decoding; syntactically invalid JSON raises MalformedJson;
a decoded root that is not an object containing a diagnostics array raises
InvalidShape; every other input yields a Report without raising.  (The
JavaScript cause chained onto the MalformedJson error is not representable
in this embedding.) -/
theorem C6_error_taxonomy (s : String) :
    (parseOxlintJson s = Except.error ParseError.emptyInput ↔ jsTrim s = "") ∧
    (parseOxlintJson s = Except.error ParseError.malformedJson ↔
      (jsTrim s ≠ "" ∧ Json.parse s = none)) ∧
    (parseOxlintJson s = Except.error ParseError.invalidShape ↔
      (jsTrim s ≠ "" ∧ ∃ v, Json.parse s = some v ∧ getDiagnostics v = none)) ∧
    ((∃ rep, parseOxlintJson s = Except.ok rep) ↔
      (jsTrim s ≠ "" ∧ ∃ v ds, Json.parse s = some v ∧ getDiagnostics v = some ds)) ∧
    (∀ v ds, Json.parse s = some v → getDiagnostics v = some ds →
      parseOxlintJson s = Except.ok (buildReport v ds)) := by
  unfold parseOxlintJson
  by_cases h1 : jsTrim s = ""
  · rw [if_pos h1]
    refine ⟨⟨fun _ => h1, fun _ => rfl⟩, ?_, ?_, ?_, ?_⟩
    · constructor
      · intro hcon
        injection hcon with h2
        exact ParseError.noConfusion h2
      · rintro ⟨hne, _⟩
        exact absurd h1 hne
    · constructor
      · intro hcon
        injection hcon with h2
        exact ParseError.noConfusion h2
      · rintro ⟨hne, _⟩
        exact absurd h1 hne
    · constructor
      · rintro ⟨rep, hcon⟩
        exact Except.noConfusion hcon
      · rintro ⟨hne, _⟩
        exact absurd h1 hne
    · intro v ds hv _
      rw [parse_none_of_trim_empty s h1] at hv
      exact Option.noConfusion hv
  · rw [if_neg h1]
    cases hp : Json.parse s with
    | none =>
      dsimp only
      refine ⟨?_, ⟨fun _ => ⟨h1, rfl⟩, fun _ => rfl⟩, ?_, ?_, ?_⟩
      · constructor
        · intro hcon
          injection hcon with h2
          exact ParseError.noConfusion h2
        · intro h2
          exact absurd h2 h1
      · constructor
        · intro hcon
          injection hcon with h2
          exact ParseError.noConfusion h2
        · rintro ⟨_, v, hv, _⟩
          exact Option.noConfusion hv
      · constructor
        · rintro ⟨rep, hcon⟩
          exact Except.noConfusion hcon
        · rintro ⟨_, v, ds, hv, _⟩
          exact Option.noConfusion hv
      · intro v ds hv _
        exact Option.noConfusion hv
    | some v =>
      dsimp only
      cases hd : getDiagnostics v with
      | none =>
        dsimp only
        refine ⟨?_, ?_, ⟨fun _ => ⟨h1, v, rfl, hd⟩, fun _ => rfl⟩, ?_, ?_⟩
        · constructor
          · intro hcon
            injection hcon with h2
            exact ParseError.noConfusion h2
          · intro h2
            exact absurd h2 h1
        · constructor
          · intro hcon
            injection hcon with h2
            exact ParseError.noConfusion h2
          · rintro ⟨_, hpn⟩
            exact Option.noConfusion hpn
        · constructor
          · rintro ⟨rep, hcon⟩
            exact Except.noConfusion hcon
          · rintro ⟨_, v2, ds2, hv2, hd2⟩
            injection hv2 with he
            subst he
            rw [hd] at hd2
            exact Option.noConfusion hd2
        · intro v2 ds2 hv hd2
          injection hv with he
          subst he
          rw [hd] at hd2
          exact Option.noConfusion hd2
      | some ds =>
        dsimp only
        refine ⟨?_, ?_, ?_,
          ⟨fun _ => ⟨h1, v, ds, rfl, hd⟩, fun _ => ⟨buildReport v ds, rfl⟩⟩, ?_⟩
        · constructor
          · intro hcon
            exact Except.noConfusion hcon
          · intro h2
            exact absurd h2 h1
        · constructor
          · intro hcon
            exact Except.noConfusion hcon
          · rintro ⟨_, hpn⟩
            exact Option.noConfusion hpn
        · constructor
          · intro hcon
            exact Except.noConfusion hcon
          · rintro ⟨_, v2, hv2, hd2⟩
            injection hv2 with he
            subst he
            rw [hd] at hd2
            exact Option.noConfusion hd2
        · intro v2 ds2 hv hd2
          injection hv with he
          subst he
          rw [hd] at hd2
          injection hd2 with he2
          subst he2
          rfl

set_option maxRecDepth 100000

/-- Raw diagnostics array: one entry missing most keys, one entry with all
four required keys. -/
def c5ds : List Json :=
  [Json.obj [("message", Json.str "m")],
   Json.obj [("message", Json.str "m"), ("code", Json.str "c"),
     ("severity", Json.str "warn"), ("filename", Json.str "f")]]

/-- Root document wrapping `c5ds`. -/
def c5json : Json := Json.obj [("diagnostics", Json.arr c5ds)]

/-- Concrete text whose JSON parse is `c5json`. -/
def c5str : String :=
  "\x7b\"diagnostics\":[\x7b\"message\":\"m\"\x7d,\x7b\"message\":\"m\",\"code\":\"c\",\"severity\":\"warn\",\"filename\":\"f\"\x7d]\x7d"

theorem C5_admission_filter_witness :
    parseOxlintJson c5str = Except.ok (buildReport c5json c5ds) ∧
    (buildReport c5json c5ds).diagnostics.length = 1 ∧
    isOxlintDiagnostic (Json.obj [("message", Json.str "m")]) = false := by
  obtain ⟨h1, _, _⟩ := C5_admission_filter c5str c5json c5ds rfl rfl
  exact ⟨h1, by decide, by decide⟩

theorem C6_error_taxonomy_witness :
    parseOxlintJson "" = Except.error ParseError.emptyInput ∧
    parseOxlintJson "   \n   " = Except.error ParseError.emptyInput ∧
    parseOxlintJson "\x7b" = Except.error ParseError.malformedJson ∧
    parseOxlintJson "\"hello\"" = Except.error ParseError.invalidShape := by
  obtain ⟨ha, _, _, _, _⟩ := C6_error_taxonomy ""
  obtain ⟨hb, _, _, _, _⟩ := C6_error_taxonomy "   \n   "
  obtain ⟨_, hc, _, _, _⟩ := C6_error_taxonomy "\x7b"
  obtain ⟨_, _, hd, _, _⟩ := C6_error_taxonomy "\"hello\""
  refine ⟨ha.mpr rfl, hb.mpr rfl, hc.mpr ⟨by decide, rfl⟩,
    hd.mpr ⟨by decide, Json.str "hello", rfl, rfl⟩⟩
